import Mathlib

/-!
Verification of the order execution, position and ledger engine.

Sources embedded here:
- `apps/api/trading/simulator.py` (spread, slippage, fill simulation, P&L),
- `apps/api/core/order_processor.py` (the trigger evaluator sweep over
  pending limit/stop/stop-limit orders, position netting, balance and
  ledger writes),
- data model fields from `apps/api/models/{order,position,account,ledger}.py`.

Python `Decimal` arithmetic is modelled by exact rational arithmetic (ℚ).
The random slippage factor drawn by `random.uniform(0, 1)` is passed in
explicitly as a parameter `r`.  Python truthiness of `Decimal`/`Optional`
price fields (`if order.price and ...`) is modelled by `truthy`, which
maps both `None` and `0` to `none`.
-/

unseal Rat.add Rat.sub Rat.mul Rat.inv

namespace Engine

/-- Order side (`simulator.py` / `models/order.py`). -/
inductive OrderSide
  | buy
  | sell
deriving DecidableEq, Repr

/-- Order type (`simulator.py` / `models/order.py`). -/
inductive OrderType
  | market
  | limit
  | stop
  | stop_limit
  | take_profit
  | trailing_stop
  | oco
deriving DecidableEq, Repr

/-- Order status; `partFilled` stands for the source's partially-filled member. -/
inductive OrderStatus
  | pending
  | filled
  | partFilled
  | cancelled
  | rejected
deriving DecidableEq, Repr

/-- Instrument asset class (`simulator.py` / `models/instrument.py`). -/
inductive InstrumentType
  | forex
  | crypto
  | stock
  | index
  | commodity
deriving DecidableEq, Repr

/-- Position status (`models/position.py`); `opened` stands for the source's OPEN. -/
inductive PositionStatus
  | opened
  | closed
deriving DecidableEq, Repr

/-- Ledger entry type (`models/ledger.py`). -/
inductive EntryType
  | deposit
  | withdrawal
  | admin_adjustment
  | trade_pnl
  | fee
  | bonus
  | correction
  | investment_allocation
  | investment_return
  | investment_withdrawal
deriving DecidableEq, Repr

/-- The Python enum value string of an order type (used in reason messages). -/
def OrderType.pyName : OrderType → String
  | .market => "market"
  | .limit => "limit"
  | .stop => "stop"
  | .stop_limit => "stop_limit"
  | .take_profit => "take_profit"
  | .trailing_stop => "trailing_stop"
  | .oco => "oco"

/-- The `TradingSimulator.SPREADS` table (spread percentage per asset class). -/
def SPREADS : InstrumentType → ℚ
  | .forex => 2/10000
  | .crypto => 1/1000
  | .stock => 5/10000
  | .index => 3/10000
  | .commodity => 8/10000

/-- The `TradingSimulator.MAX_SLIPPAGE` table with the dict default of 0. -/
def MAX_SLIPPAGE : OrderType → ℚ
  | .market => 5/1000
  | .limit => 0
  | .stop => 3/1000
  | _ => 0

/-- Embedding of `TradingSimulator.calculate_spread`: returns `(bid, ask)`. -/
def calculate_spread (current_price : ℚ) (instrument_type : InstrumentType) : ℚ × ℚ :=
  let half_spread := current_price * SPREADS instrument_type / 2
  (current_price - half_spread, current_price + half_spread)

/-- Embedding of `TradingSimulator.calculate_slippage`; `r` is the value drawn from
`random.uniform(0, 1)`. -/
def calculate_slippage (r : ℚ) (order_type : OrderType) (side : OrderSide) (price : ℚ) : ℚ :=
  let max_slip_pct := MAX_SLIPPAGE order_type
  if max_slip_pct = 0 then 0
  else
    let slip_pct := max_slip_pct * r
    let slippage := price * slip_pct
    if side = .buy then slippage else -slippage

/-- Python truthiness of an optional Decimal: `None` and `0` are falsy. -/
def truthy : Option ℚ → Option ℚ
  | some x => if x = 0 then none else some x
  | none => none

/-- The dictionary returned by `simulate_order_fill`, one constructor per shape. -/
inductive FillOutcome
  | filled (fill_price filled_size notional_value margin_required fee slippage : ℚ)
  | pending (fill_price : Option ℚ) (filled_size : ℚ) (reason : String)
  | rejected (reason : String)
deriving DecidableEq, Repr

/-- Whether an outcome is a fill. -/
def FillOutcome.isFilled : FillOutcome → Bool
  | .filled .. => true
  | _ => false

/-- Whether an outcome is pending. -/
def FillOutcome.isPending : FillOutcome → Bool
  | .pending .. => true
  | _ => false

/-- The common tail of `simulate_order_fill`: notional value, margin, fee, and
the reported slippage field (`slippage if order_type == MARKET else 0`). -/
def fill_return (order_type : OrderType) (fp size slip : ℚ) (leverage : ℕ) : FillOutcome :=
  let notional_value := fp * size
  .filled fp size notional_value (notional_value / (leverage : ℚ)) (notional_value * (1/1000))
    (if order_type = .market then slip else 0)

/-- Embedding of `TradingSimulator.simulate_order_fill`. -/
def simulate_order_fill (r : ℚ) (order_type : OrderType) (side : OrderSide)
    (size current_price : ℚ) (limit_price stop_price : Option ℚ)
    (instrument_type : InstrumentType) (leverage : ℕ) : FillOutcome :=
  let ba := calculate_spread current_price instrument_type
  let bid := ba.1
  let ask := ba.2
  match order_type with
  | .market =>
    let base_price := if side = .buy then ask else bid
    let slippage := calculate_slippage r .market side base_price
    fill_return .market (base_price + slippage) size slippage leverage
  | .limit =>
    match truthy limit_price with
    | none => .rejected ("Limit price required for limit order")
    | some lp =>
      if side = .buy ∧ lp ≥ ask then
        fill_return .limit (min ask lp) size 0 leverage
      else if side = .sell ∧ lp ≤ bid then
        fill_return .limit (max bid lp) size 0 leverage
      else
        .pending none 0 "Limit price not reached"
  | .stop =>
    match truthy stop_price with
    | none => .rejected ("Stop price required for stop order")
    | some sp =>
      if (side = .buy ∧ current_price ≥ sp) ∨ (side = .sell ∧ current_price ≤ sp) then
        let base_price := if side = .buy then ask else bid
        let slippage := calculate_slippage r .stop side base_price
        fill_return .stop (base_price + slippage) size slippage leverage
      else
        .pending none 0 "Stop price not triggered"
  | t => .rejected ("Order type " ++ t.pyName ++ " not yet implemented")

/-- Result dictionary of `TradingSimulator.calculate_position_pnl`. -/
structure PnlResult where
  unrealized_pnl : ℚ
  unrealized_pnl_pct : ℚ
  price_diff : ℚ
deriving DecidableEq, Repr

/-- Embedding of `TradingSimulator.calculate_position_pnl`. -/
def calculate_position_pnl (entry_price current_price size : ℚ) (side : OrderSide)
    (leverage : ℕ) : PnlResult :=
  let price_diff := if side = .buy then current_price - entry_price else entry_price - current_price
  { unrealized_pnl := price_diff * size,
    unrealized_pnl_pct := price_diff / entry_price * 100 * (leverage : ℚ),
    price_diff := price_diff }

/-- Instrument row (`models/instrument.py`), restricted to the fields the
order processor reads (identity and symbol; the asset-class mapping feeds
only the simulator, which `process_pending_orders` never calls). -/
structure Instrument where
  id : ℕ
  symbol : String
deriving DecidableEq, Repr

/-- Order row (`models/order.py`), restricted to the fields the engine touches. -/
structure Order where
  id : ℕ
  accountId : ℕ
  instrumentId : ℕ
  side : OrderSide
  type : OrderType
  size : ℚ
  price : Option ℚ
  stopPrice : Option ℚ
  leverage : ℕ
  status : OrderStatus
  fillPrice : Option ℚ
  filledSize : ℚ
  fee : ℚ
  marginRequired : ℚ
  pnl : Option ℚ
  createdAt : ℕ
deriving DecidableEq, Repr

/-- Position row (`models/position.py`); the stored side string is modelled
as `OrderSide` since the code compares it case-insensitively to order sides. -/
structure Position where
  id : ℕ
  accountId : ℕ
  instrumentId : ℕ
  side : OrderSide
  size : ℚ
  entryPrice : ℚ
  currentPrice : ℚ
  leverage : ℕ
  status : PositionStatus
deriving DecidableEq, Repr

/-- Account row (`models/account.py`), restricted to the fields the engine touches. -/
structure Account where
  id : ℕ
  userId : ℕ
  virtualBalance : ℚ
  totalPnl : ℚ
  totalTrades : ℕ
  winningTrades : ℕ
  losingTrades : ℕ
deriving DecidableEq, Repr

/-- Ledger row (`models/ledger.py`). -/
structure LedgerEntry where
  accountId : ℕ
  userId : ℕ
  entryType : EntryType
  amount : ℚ
  balanceAfter : ℚ
  description : String
  referenceType : Option String
  referenceId : Option ℕ
deriving DecidableEq, Repr

/-- The database state seen by one sweep of `process_pending_orders`:
the tables it reads and writes, in row-storage order, plus a fresh id
source for positions it creates. -/
structure SimState where
  instruments : List Instrument
  orders : List Order
  positions : List Position
  accounts : List Account
  ledger : List LedgerEntry
  nextPosId : ℕ
deriving DecidableEq, Repr

/-- The instrument lookup `session.get(Instrument, order.instrument_id)`. -/
def find_instrument (l : List Instrument) (iid : ℕ) : Option Instrument :=
  l.find? (fun x => x.id == iid)

/-- The account lookup `session.get(Account, order.account_id)`. -/
def find_account (l : List Account) (aid : ℕ) : Option Account :=
  l.find? (fun a => a.id == aid)

/-- The open-position query (`select(Position).where(account/instrument/OPEN).first()`). -/
def find_open_position (l : List Position) (aid iid : ℕ) : Option Position :=
  l.find? (fun p => p.accountId == aid && p.instrumentId == iid && p.status == PositionStatus.opened)

/-- Writing back a mutated order row (by primary key). -/
def update_order (l : List Order) (o' : Order) : List Order :=
  l.map (fun o => if o.id == o'.id then o' else o)

/-- Writing back a mutated account row (by primary key). -/
def update_account (l : List Account) (a' : Account) : List Account :=
  l.map (fun a => if a.id == a'.id then a' else a)

/-- Writing back a mutated position row (by primary key). -/
def update_position (l : List Position) (p' : Position) : List Position :=
  l.map (fun p => if p.id == p'.id then p' else p)

/-- The fee ledger entry built at `order_processor.py:252`. -/
def fee_ledger_entry (acct : Account) (instr : Instrument) (o : Order) : LedgerEntry :=
  { accountId := acct.id, userId := acct.userId, entryType := .fee, amount := -o.fee,
    balanceAfter := acct.virtualBalance,
    description := "Trading fee for " ++ instr.symbol ++ " order",
    referenceType := some ("order"), referenceId := some o.id }

/-- The realized-P&L ledger entry built at `order_processor.py:204`. -/
def pnl_ledger_entry (acct : Account) (instr : Instrument) (o : Order) (realized : ℚ) : LedgerEntry :=
  { accountId := acct.id, userId := acct.userId, entryType := .trade_pnl, amount := realized,
    balanceAfter := acct.virtualBalance,
    description := "Realized P&L from " ++ instr.symbol ++ " position",
    referenceType := some ("order"), referenceId := some o.id }

/-- The trigger evaluation of `process_pending_orders` (lines 70-109): decides
`should_fill` and `fill_price` for a pending conditional order against the
current price.  Returns `some fill_price` when `should_fill` is set.  Python
truthiness of `order.price` / `order.stop_price` is preserved via `truthy`. -/
def trigger_fill_price (o : Order) (current_price : ℚ) : Option ℚ :=
  match o.type with
  | .limit =>
    if o.side = .buy then
      match truthy o.price with
      | some pr => if current_price ≤ pr then some (min current_price pr) else none
      | none => none
    else
      match truthy o.price with
      | some pr => if current_price ≥ pr then some (max current_price pr) else none
      | none => none
  | .stop =>
    if o.side = .buy then
      match truthy o.stopPrice with
      | some sp => if current_price ≥ sp then some current_price else none
      | none => none
    else
      match truthy o.stopPrice with
      | some sp => if current_price ≤ sp then some current_price else none
      | none => none
  | .stop_limit =>
    if o.side = .buy then
      match truthy o.stopPrice with
      | some sp =>
        if current_price ≥ sp then
          match truthy o.price with
          | some pr => if current_price ≤ pr then some (min current_price pr) else none
          | none => none
        else none
      | none => none
    else
      match truthy o.stopPrice with
      | some sp =>
        if current_price ≤ sp then
          match truthy o.price with
          | some pr => if current_price ≥ pr then some (max current_price pr) else none
          | none => none
        else none
      | none => none
  | _ => none

/-- The order row as mutated by the fill block (lines 129-138): status FILLED,
fill price and size recorded, fee `0.1%` of notional, margin `notional/leverage`. -/
def filled_order (o : Order) (fp : ℚ) : Order :=
  { o with
    status := .filled, fillPrice := some fp, filledSize := o.size,
    fee := fp * o.size * (1/1000), marginRequired := fp * o.size / (o.leverage : ℚ) }

/-- The account row after the margin-plus-fee deduction (lines 140-142). -/
def charged_account (acct : Account) (o : Order) (fp : ℚ) : Account :=
  { acct with
    virtualBalance := acct.virtualBalance - (fp * o.size / (o.leverage : ℚ) + fp * o.size * (1/1000)),
    totalTrades := acct.totalTrades + 1 }

/-- The account row after a realized P&L is applied (lines 195-201). -/
def pnl_account (acct : Account) (realized : ℚ) : Account :=
  { acct with
    virtualBalance := acct.virtualBalance + realized,
    totalPnl := acct.totalPnl + realized,
    winningTrades := if 0 < realized then acct.winningTrades + 1 else acct.winningTrades,
    losingTrades := if 0 < realized then acct.losingTrades else acct.losingTrades + 1 }

/-- The realized P&L the code computes when fully closing a position at fill
price `fp` (lines 180-191): `calculate_position_pnl`'s `unrealized_pnl` at the
position's entry price, size, side and leverage. -/
def realized_pnl (pos : Position) (fp : ℚ) : ℚ :=
  (calculate_position_pnl pos.entryPrice fp pos.size pos.side pos.leverage).unrealized_pnl

/-- The execution block of `process_pending_orders` (lines 129-266) for a
triggered order: marks the order filled, deducts margin plus fee from the
account, nets the fill against the open position book (increase, partial
close, full close with optional residual position), and appends the ledger
entries the code writes (realized P&L entry on a full close, fee entry always). -/
def fill_step (s : SimState) (instr : Instrument) (o : Order) (acct : Account) (fp : ℚ) : SimState :=
  let o1 : Order := filled_order o fp
  let acct1 : Account := charged_account acct o fp
  match find_open_position s.positions o.accountId o.instrumentId with
  | some pos =>
    if pos.side = o.side then
      let total_size := pos.size + o.size
      let pos' := { pos with
        size := total_size,
        entryPrice := (pos.entryPrice * pos.size + fp * o.size) / total_size,
        currentPrice := fp }
      { s with orders := update_order s.orders o1,
               positions := update_position s.positions pos',
               accounts := update_account s.accounts acct1,
               ledger := s.ledger ++ [fee_ledger_entry acct1 instr o1] }
    else if o.size ≥ pos.size then
      let realized := (calculate_position_pnl pos.entryPrice fp pos.size pos.side pos.leverage).unrealized_pnl
      let o2 := { o1 with pnl := some realized }
      let acct2 := pnl_account acct1 realized
      let pos' := { pos with status := .closed, currentPrice := fp }
      let remaining := o.size - pos.size
      let new_positions : List Position :=
        if 0 < remaining then
          [{ id := s.nextPosId, accountId := acct.id, instrumentId := o.instrumentId,
             side := o.side, size := remaining, entryPrice := fp, currentPrice := fp,
             leverage := o.leverage, status := .opened }]
        else []
      { s with orders := update_order s.orders o2,
               positions := update_position s.positions pos' ++ new_positions,
               accounts := update_account s.accounts acct2,
               ledger := s.ledger ++ [pnl_ledger_entry acct2 instr o2 realized,
                                      fee_ledger_entry acct2 instr o2],
               nextPosId := if 0 < remaining then s.nextPosId + 1 else s.nextPosId }
    else
      let pos' := { pos with size := pos.size - o.size, currentPrice := fp }
      { s with orders := update_order s.orders o1,
               positions := update_position s.positions pos',
               accounts := update_account s.accounts acct1,
               ledger := s.ledger ++ [fee_ledger_entry acct1 instr o1] }
  | none =>
    let new_pos : Position :=
      { id := s.nextPosId, accountId := acct.id, instrumentId := o.instrumentId,
        side := o.side, size := o.size, entryPrice := fp, currentPrice := fp,
        leverage := o.leverage, status := .opened }
    { s with orders := update_order s.orders o1,
             positions := s.positions ++ [new_pos],
             accounts := update_account s.accounts acct1,
             ledger := s.ledger ++ [fee_ledger_entry acct1 instr o1],
             nextPosId := s.nextPosId + 1 }

/-- One loop iteration of `process_pending_orders` on one pending order:
skip when the instrument is missing, the trigger does not fire, the fill
price is falsy, or the account is missing; reject a triggered buy whose
required margin exceeds the balance; otherwise execute the fill. -/
def step (price : ℕ → ℚ) (s : SimState) (o : Order) : SimState :=
  match find_instrument s.instruments o.instrumentId with
  | none => s
  | some instr =>
    match trigger_fill_price o (price o.instrumentId) with
    | none => s
    | some fp =>
      if fp = 0 then s
      else
        match find_account s.accounts o.accountId with
        | none => s
        | some acct =>
          if o.side = .buy ∧ acct.virtualBalance < fp * o.size / (o.leverage : ℚ) then
            { s with orders := update_order s.orders { o with status := .rejected } }
          else
            fill_step s instr o acct fp

/-- The `where` filter of the pending-order query (status PENDING, type in
LIMIT/STOP/STOP_LIMIT).  The query has no `order_by`: rows keep the
storage order of `SimState.orders`. -/
def pending_conditional (o : Order) : Bool :=
  o.status == .pending && (o.type == .limit || o.type == .stop || o.type == .stop_limit)

/-- One sweep of `process_pending_orders`: the pending conditional orders
are selected once, then processed in the order the query returned them,
threading the database state through each iteration. -/
def process_pending_orders (price : ℕ → ℚ) (s : SimState) : SimState :=
  (s.orders.filter pending_conditional).foldl (step price) s

/-- Look up an order row by id. -/
def order_by_id (s : SimState) (oid : ℕ) : Option Order :=
  s.orders.find? (fun o => o.id == oid)

/-- Look up a position row by id. -/
def position_by_id (s : SimState) (pid : ℕ) : Option Position :=
  s.positions.find? (fun p => p.id == pid)

/-- The virtual balance of an account, when it exists. -/
def account_balance (s : SimState) (aid : ℕ) : Option ℚ :=
  (find_account s.accounts aid).map Account.virtualBalance

/-- The status of an order row, when it exists. -/
def order_status_of (s : SimState) (oid : ℕ) : Option OrderStatus :=
  (order_by_id s oid).map Order.status

/-- Sum of the ledger-entry amounts of one account, in creation order. -/
def ledger_sum (l : List LedgerEntry) (aid : ℕ) : ℚ :=
  ((l.filter (fun e => e.accountId == aid)).map LedgerEntry.amount).sum

/-- A one-account, one-instrument test fixture account. -/
def mkAccount (bal : ℚ) : Account :=
  { id := 1, userId := 1, virtualBalance := bal, totalPnl := 0,
    totalTrades := 0, winningTrades := 0, losingTrades := 0 }

/-- The test fixture instrument. -/
def btcInstrument : Instrument := { id := 1, symbol := "BTC" }

/-- A pending limit order on the fixture account and instrument. -/
def mkLimitOrder (oid : ℕ) (side : OrderSide) (size pr : ℚ) (t : ℕ) : Order :=
  { id := oid, accountId := 1, instrumentId := 1, side := side, type := .limit,
    size := size, price := some pr, stopPrice := none, leverage := 1,
    status := .pending, fillPrice := none, filledSize := 0, fee := 0,
    marginRequired := 0, pnl := none, createdAt := t }

/-- A fixture database state around the fixture account. -/
def baseState (orders : List Order) (positions : List Position)
    (ledger : List LedgerEntry) (bal : ℚ) : SimState :=
  { instruments := [btcInstrument], orders := orders, positions := positions,
    accounts := [mkAccount bal], ledger := ledger, nextPosId := 2 }

/-- A pending stop-limit order on the fixture account and instrument. -/
def mkStopLimitOrder (oid : ℕ) (side : OrderSide) (size pr sp : ℚ) (t : ℕ) : Order :=
  { mkLimitOrder oid side size pr t with type := .stop_limit, stopPrice := some sp }

/-- C1 failing input: one pending buy limit order at 100, size 1, leverage 1,
on an account holding 1000, evaluated at market price 100. -/
def c1State : SimState := baseState [mkLimitOrder 1 .buy 1 100 0] [] [] 1000

/-- C2 fixture: an open long position of size 2 at entry 100. -/
def c2Position : Position :=
  { id := 1, accountId := 1, instrumentId := 1, side := .buy, size := 2,
    entryPrice := 100, currentPrice := 100, leverage := 1, status := .opened }

/-- C2 failing input: a pending sell limit order of size 1 at 110 against the
open long of size 2 at entry 100, on an account holding 1000. -/
def c2State : SimState := baseState [mkLimitOrder 1 .sell 1 110 0] [c2Position] [] 1000

/-- C3 fixture: a ledger that already holds a fee entry referencing order 1. -/
def c3PreexistingFee : LedgerEntry :=
  { accountId := 1, userId := 1, entryType := .fee, amount := -(1/10), balanceAfter := 8999/10,
    description := "Trading fee for BTC order", referenceType := some ("order"),
    referenceId := some 1 }

/-- C3 failing input: order 1 still pending while a fee ledger entry
referencing order 1 already exists. -/
def c3State : SimState := baseState [mkLimitOrder 1 .buy 1 100 0] [] [c3PreexistingFee] 1000

/-- C5 fixture: two identical competing pending buy-limit orders (size 1,
limit 100, leverage 1) whose `created_at` stamps are `t1` (first row) and
`t2` (second row), on an account whose balance 100 covers only one fill. -/
def c5State (t1 t2 : ℕ) : SimState :=
  baseState [mkLimitOrder 1 .buy 1 100 t1, mkLimitOrder 2 .buy 1 100 t2] [] [] 100

/-- C9 fixture order: a pending buy limit at 100 of size 1. -/
def c9BuyOrder : Order := mkLimitOrder 1 .buy 1 100 0

/-- C9 fixture: the buy order on an account whose balance 50 is below the
margin 100 the fill would require. -/
def c9BuyState : SimState := baseState [c9BuyOrder] [] [] 50

/-- C9 fixture order: a pending sell limit at 100 of size 1. -/
def c9SellOrder : Order := mkLimitOrder 1 .sell 1 100 0

/-- C9 fixture: the sell order on an account holding only 10, far below the
margin 100 plus fee 0.1 the fill deducts. -/
def c9SellState : SimState := baseState [c9SellOrder] [] [] 10

/-- C8 fixture: an open long position of size 2 at entry 100 (the spec's
overshoot example). -/
def c8Position : Position :=
  { id := 1, accountId := 1, instrumentId := 1, side := .buy, size := 2,
    entryPrice := 100, currentPrice := 100, leverage := 1, status := .opened }

/-- C8 fixture: a pending sell limit order of size 5 at 110. -/
def c8Order : Order := mkLimitOrder 1 .sell 5 110 0

/-- C8 fixture: the sell order of size 5 against the open long of size 2. -/
def c8State : SimState := baseState [c8Order] [c8Position] [] 1000

end Engine

namespace Engine

/-! ## Helper lemmas -/

/-- Looking up by id after writing back a row with that id returns the new row. -/
theorem find_update_order (l : List Order) (o' : Order) (oid : ℕ) (hid : o'.id = oid)
    (h : ∃ x ∈ l, x.id = oid) :
    (update_order l o').find? (fun o => o.id == oid) = some o' := by
  induction l with
  | nil => simp at h
  | cons x xs ih =>
    rcases h with ⟨y, hy, hk⟩
    by_cases hx : x.id = oid
    · have hhead : (if x.id == o'.id then o' else x) = o' := by simp [hid, hx]
      simp only [update_order, List.map_cons]
      rw [hhead]
      exact List.find?_cons_of_pos _ (by simp [hid])
    · have hhead : (if x.id == o'.id then o' else x) = x := by simp [hid, hx]
      simp only [update_order, List.map_cons]
      rw [hhead, List.find?_cons_of_neg _ (by simp [hx])]
      refine ih ⟨y, ?_, hk⟩
      rcases List.mem_cons.mp hy with h1 | h1
      · exact absurd (h1 ▸ hk) hx
      · exact h1

/-- Looking up by id after writing back an account row with that id returns the new row. -/
theorem find_update_account (l : List Account) (a' : Account) (aid : ℕ) (hid : a'.id = aid)
    (h : ∃ x ∈ l, x.id = aid) :
    (update_account l a').find? (fun a => a.id == aid) = some a' := by
  induction l with
  | nil => simp at h
  | cons x xs ih =>
    rcases h with ⟨y, hy, hk⟩
    by_cases hx : x.id = aid
    · have hhead : (if x.id == a'.id then a' else x) = a' := by simp [hid, hx]
      simp only [update_account, List.map_cons]
      rw [hhead]
      exact List.find?_cons_of_pos _ (by simp [hid])
    · have hhead : (if x.id == a'.id then a' else x) = x := by simp [hid, hx]
      simp only [update_account, List.map_cons]
      rw [hhead, List.find?_cons_of_neg _ (by simp [hx])]
      refine ih ⟨y, ?_, hk⟩
      rcases List.mem_cons.mp hy with h1 | h1
      · exact absurd (h1 ▸ hk) hx
      · exact h1

/-- Looking up by id after writing back a position row with that id returns the new row. -/
theorem find_update_position (l : List Position) (p' : Position) (pid : ℕ) (hid : p'.id = pid)
    (h : ∃ x ∈ l, x.id = pid) :
    (update_position l p').find? (fun p => p.id == pid) = some p' := by
  induction l with
  | nil => simp at h
  | cons x xs ih =>
    rcases h with ⟨y, hy, hk⟩
    by_cases hx : x.id = pid
    · have hhead : (if x.id == p'.id then p' else x) = p' := by simp [hid, hx]
      simp only [update_position, List.map_cons]
      rw [hhead]
      exact List.find?_cons_of_pos _ (by simp [hid])
    · have hhead : (if x.id == p'.id then p' else x) = x := by simp [hid, hx]
      simp only [update_position, List.map_cons]
      rw [hhead, List.find?_cons_of_neg _ (by simp [hx])]
      refine ih ⟨y, ?_, hk⟩
      rcases List.mem_cons.mp hy with h1 | h1
      · exact absurd (h1 ▸ hk) hx
      · exact h1

/-- A successful account lookup pins the row's id. -/
theorem find_account_id {l : List Account} {aid : ℕ} {a : Account}
    (h : find_account l aid = some a) : a.id = aid := by
  have := List.find?_some h
  simpa using this

/-- A successful account lookup returns a member of the table. -/
theorem find_account_mem {l : List Account} {aid : ℕ} {a : Account}
    (h : find_account l aid = some a) : a ∈ l :=
  List.mem_of_find?_eq_some h

/-- A successful open-position lookup returns a member of the table. -/
theorem find_open_position_mem {l : List Position} {aid iid : ℕ} {p : Position}
    (h : find_open_position l aid iid = some p) : p ∈ l :=
  List.mem_of_find?_eq_some h

/-! ## Claim theorems -/

/-- C1: the balance/ledger conservation invariant fails on the code.  At the
failing input (one pending buy limit order at 100, size 1, leverage 1, account
balance 1000, market price 100) one sweep of `process_pending_orders` deducts
margin plus fee (100.1) from `virtual_balance`, ending at 899.9, but appends
only the fee ledger entry (amount -0.1): the margin reservation has no ledger
entry, so initial balance plus the ledger sum is 999.9, not the new balance. -/
theorem c1_conservation_violated :
    account_balance c1State 1 = some 1000
    ∧ account_balance (process_pending_orders (fun _ => 100) c1State) 1 = some (8999/10)
    ∧ ledger_sum (process_pending_orders (fun _ => 100) c1State).ledger 1 = -(1/10)
    ∧ (1000 : ℚ) + ledger_sum (process_pending_orders (fun _ => 100) c1State).ledger 1
        ≠ 8999/10 := by
  decide

/-- C5 (amended): within one sweep, pending orders are evaluated in the row
order the unsorted query returns them, not by `created_at`: for the two
competing identical buy-limit orders of `c5State` (balance covers only one),
the first row fills and the second is rejected, both when the first row is
the older order (stamps 3,5) and when it is the newer one (stamps 5,3). -/
theorem c5_row_order_decides :
    ((process_pending_orders (fun _ => 100) (c5State 3 5)).orders.map
        (fun o => (o.id, o.status))
      = [(1, OrderStatus.filled), (2, OrderStatus.rejected)])
    ∧ ((process_pending_orders (fun _ => 100) (c5State 5 3)).orders.map
        (fun o => (o.id, o.status))
      = [(1, OrderStatus.filled), (2, OrderStatus.rejected)]) := by
  decide

/-- C5 counterexample: with the first row created at time 5 and the second at
time 3, the earliest-created order (id 2) is rejected while the later-created
order (id 1) fills, contradicting the claimed oldest-first evaluation order. -/
theorem c5_counterexample :
    (mkLimitOrder 2 .buy 1 100 3).createdAt < (mkLimitOrder 1 .buy 1 100 5).createdAt
    ∧ order_status_of (process_pending_orders (fun _ => 100) (c5State 5 3)) 1
        = some .filled
    ∧ order_status_of (process_pending_orders (fun _ => 100) (c5State 5 3)) 2
        = some .rejected := by
  decide

/-- C2 counterexample: a sell fill of size 1 at 110 against an open long of
size 2 at entry 100 (a partial close) realizes no P&L at all: the order's
`pnl` stays unset, no trade-P&L ledger entry is written, and the account
balance 1000 becomes 889.89 (margin 110 plus fee 0.11 deducted, no +10
credit), contradicting the claimed `(fill_price - entry_price) * fill.size`
realization. -/
theorem c2_counterexample :
    position_by_id (process_pending_orders (fun _ => 110) c2State) 1
      = some { c2Position with size := 1, currentPrice := 110 }
    ∧ (order_by_id (process_pending_orders (fun _ => 110) c2State) 1).map Order.pnl
      = some none
    ∧ ((process_pending_orders (fun _ => 110) c2State).ledger.filter
        (fun e => e.entryType == EntryType.trade_pnl)).length = 0
    ∧ account_balance (process_pending_orders (fun _ => 110) c2State) 1
      = some (88989/100) := by
  decide

/-- C3 counterexample: a fee ledger entry referencing order 1 already exists,
yet processing the pending order 1 appends a second fee entry referencing the
same order id (and changes the balance), so the claimed
existing-ledger-entry no-op check does not exist in the code. -/
theorem c3_counterexample :
    (c3State.ledger.filter
      (fun e => e.entryType == EntryType.fee && e.referenceId == some 1)).length = 1
    ∧ ((process_pending_orders (fun _ => 100) c3State).ledger.filter
      (fun e => e.entryType == EntryType.fee && e.referenceId == some 1)).length = 2
    ∧ account_balance (process_pending_orders (fun _ => 100) c3State) 1 ≠
        account_balance c3State 1 := by
  decide

/-- C4 counterexample: in `simulate_order_fill` a stop-limit order whose stop
condition is met (price 100 at or above stop 95) but whose limit (90) cannot
be satisfied is Rejected as not implemented, not left Pending. -/
theorem c4_counterexample :
    simulate_order_fill 0 .stop_limit .buy 1 100 (some 90) (some 95) .crypto 1
      = .rejected ("Order type stop_limit not yet implemented")
    ∧ (simulate_order_fill 0 .stop_limit .buy 1 100 (some 90) (some 95) .crypto 1).isPending
      = false := by
  decide

/-- C4 (amended): the stateless stop-then-limit evaluation that the claim
describes lives in the trigger evaluator `process_pending_orders`, while
`simulate_order_fill` rejects stop-limit orders as not implemented (see the
counterexample).  In the trigger evaluator, a pending stop-limit order whose
stop has triggered but whose limit condition cannot currently be satisfied
leaves the database state entirely unchanged: the order stays Pending, is not
Rejected, and no armed state of any kind is recorded. -/
theorem c4_stop_limit_stays_pending (price : ℕ → ℚ) (s : SimState) (o : Order) (sp pr : ℚ)
    (hty : o.type = .stop_limit) (hsp : o.stopPrice = some sp) (hpr : o.price = some pr)
    (h : (o.side = .buy ∧ sp ≤ price o.instrumentId ∧ ¬ price o.instrumentId ≤ pr)
       ∨ (o.side = .sell ∧ price o.instrumentId ≤ sp ∧ ¬ pr ≤ price o.instrumentId)) :
    step price s o = s := by
  have htr : trigger_fill_price o (price o.instrumentId) = none := by
    unfold trigger_fill_price
    rw [hty]
    rcases h with ⟨hside, h1, h2⟩ | ⟨hside, h1, h2⟩ <;>
      by_cases hsp0 : sp = 0 <;> by_cases hpr0 : pr = 0 <;>
        simp [hside, hsp, hpr, truthy, hsp0, hpr0, h1, h2, ge_iff_le]
  unfold step
  simp only [htr]
  cases find_instrument s.instruments o.instrumentId <;> rfl

/-- C4 witness: the amended theorem at a concrete input — a pending buy
stop-limit order with stop 95 and limit 90 evaluated at price 100. -/
theorem c4_stop_limit_stays_pending_witness :
    ((mkStopLimitOrder 1 .buy 1 90 95 0).type = OrderType.stop_limit
      ∧ (mkStopLimitOrder 1 .buy 1 90 95 0).stopPrice = some 95
      ∧ (mkStopLimitOrder 1 .buy 1 90 95 0).price = some 90
      ∧ (mkStopLimitOrder 1 .buy 1 90 95 0).side = OrderSide.buy
      ∧ (95 : ℚ) ≤ 100 ∧ ¬ (100 : ℚ) ≤ 90)
    ∧ step (fun _ => 100) (baseState [mkStopLimitOrder 1 .buy 1 90 95 0] [] [] 1000)
        (mkStopLimitOrder 1 .buy 1 90 95 0)
      = baseState [mkStopLimitOrder 1 .buy 1 90 95 0] [] [] 1000 :=
  ⟨by decide,
   c4_stop_limit_stays_pending (fun _ => 100)
     (baseState [mkStopLimitOrder 1 .buy 1 90 95 0] [] [] 1000)
     (mkStopLimitOrder 1 .buy 1 90 95 0) 95 90 (by decide) (by decide) (by decide)
     (Or.inl ⟨by decide, by decide, by decide⟩)⟩

/-- C6: in `simulate_order_fill`, a limit order (with a truthy limit price)
fills exactly when the limit is at least as good as the touch price
(`limit_price >= ask` for a buy, `<= bid` for a sell); a fill is never worse
than the limit for the trader (buy fill price at most the limit, sell fill
price at least the limit) and fills the full size; otherwise the outcome is
Pending with `filled_size = 0`. -/
theorem c6_limit_fill_conditions (r size current_price lp : ℚ) (stop_price : Option ℚ)
    (it : InstrumentType) (lev : ℕ) (side : OrderSide) (hlp : lp ≠ 0) :
    ((simulate_order_fill r .limit side size current_price (some lp) stop_price it lev).isFilled
        = true
      ↔ ((side = .buy ∧ (calculate_spread current_price it).2 ≤ lp)
         ∨ (side = .sell ∧ lp ≤ (calculate_spread current_price it).1)))
    ∧ (∀ fp fs nv mr fe sl,
        simulate_order_fill r .limit side size current_price (some lp) stop_price it lev
          = .filled fp fs nv mr fe sl →
        fs = size ∧ (side = .buy → fp ≤ lp) ∧ (side = .sell → lp ≤ fp))
    ∧ ((simulate_order_fill r .limit side size current_price (some lp) stop_price it lev).isFilled
        = false →
       simulate_order_fill r .limit side size current_price (some lp) stop_price it lev
         = .pending none 0 "Limit price not reached") := by
  have htr : truthy (some lp) = some lp := by
    simp only [truthy]
    rw [if_neg hlp]
  have hchar :
      (side = .buy ∧ (calculate_spread current_price it).2 ≤ lp
        ∧ simulate_order_fill r .limit side size current_price (some lp) stop_price it lev
            = fill_return .limit (min (calculate_spread current_price it).2 lp) size 0 lev)
      ∨ (side = .sell ∧ lp ≤ (calculate_spread current_price it).1
        ∧ simulate_order_fill r .limit side size current_price (some lp) stop_price it lev
            = fill_return .limit (max (calculate_spread current_price it).1 lp) size 0 lev)
      ∨ (¬ (side = .buy ∧ (calculate_spread current_price it).2 ≤ lp)
        ∧ ¬ (side = .sell ∧ lp ≤ (calculate_spread current_price it).1)
        ∧ simulate_order_fill r .limit side size current_price (some lp) stop_price it lev
            = .pending none 0 "Limit price not reached") := by
    cases side with
    | buy =>
      by_cases hb : (calculate_spread current_price it).2 ≤ lp
      · refine Or.inl ⟨rfl, hb, ?_⟩
        simp [simulate_order_fill, htr, hb, fill_return]
      · refine Or.inr (Or.inr ⟨?_, ?_, ?_⟩)
        · rintro ⟨-, h⟩
          exact hb h
        · rintro ⟨h, -⟩
          cases h
        · simp [simulate_order_fill, htr, hb]
    | sell =>
      by_cases hs : lp ≤ (calculate_spread current_price it).1
      · refine Or.inr (Or.inl ⟨rfl, hs, ?_⟩)
        simp [simulate_order_fill, htr, hs, fill_return]
      · refine Or.inr (Or.inr ⟨?_, ?_, ?_⟩)
        · rintro ⟨h, -⟩
          cases h
        · rintro ⟨-, h⟩
          exact hs h
        · simp [simulate_order_fill, htr, hs]
  rcases hchar with ⟨hside, hb, heq⟩ | ⟨hside, hs, heq⟩ | ⟨hnb, hns, heq⟩
  · refine ⟨?_, ?_, ?_⟩
    · rw [heq]
      simp only [fill_return, FillOutcome.isFilled]
      constructor
      · intro _
        exact Or.inl ⟨hside, hb⟩
      · intro _
        trivial
    · intro fp fs nv mr fe sl h
      rw [heq] at h
      simp only [fill_return] at h
      injection h with h1 h2 h3 h4 h5 h6
      subst h1
      subst h2
      refine ⟨rfl, fun _ => min_le_right _ _, fun hsell => ?_⟩
      rw [hside] at hsell
      cases hsell
    · intro hfalse
      rw [heq] at hfalse
      simp only [fill_return, FillOutcome.isFilled] at hfalse
      exact Bool.noConfusion hfalse
  · refine ⟨?_, ?_, ?_⟩
    · rw [heq]
      simp only [fill_return, FillOutcome.isFilled]
      constructor
      · intro _
        exact Or.inr ⟨hside, hs⟩
      · intro _
        trivial
    · intro fp fs nv mr fe sl h
      rw [heq] at h
      simp only [fill_return] at h
      injection h with h1 h2 h3 h4 h5 h6
      subst h1
      subst h2
      refine ⟨rfl, fun hbuy => ?_, fun _ => le_max_right _ _⟩
      rw [hside] at hbuy
      cases hbuy
    · intro hfalse
      rw [heq] at hfalse
      simp only [fill_return, FillOutcome.isFilled] at hfalse
      exact Bool.noConfusion hfalse
  · refine ⟨?_, ?_, ?_⟩
    · rw [heq]
      simp only [FillOutcome.isFilled]
      constructor
      · intro h
        exact Bool.noConfusion h
      · rintro (h | h)
        · exact absurd h hnb
        · exact absurd h hns
    · intro fp fs nv mr fe sl h
      rw [heq] at h
      exact FillOutcome.noConfusion h
    · intro _
      exact heq

/-- C6 witness: the spec's example — a buy limit at 95 against a market price
of 100 (ask 100.05) stays Pending with `filled_size = 0`. -/
theorem c6_limit_fill_conditions_witness :
    ((95 : ℚ) ≠ 0)
    ∧ simulate_order_fill 0 .limit .buy 1 100 (some 95) none .crypto 1
        = .pending none 0 "Limit price not reached" :=
  ⟨by decide, by
    have h := (c6_limit_fill_conditions 0 1 100 95 none .crypto 1 .buy (by decide)).2.2
    exact h (by decide)⟩

/-- Symbolic execution of `step`: a triggered buy order whose required margin
exceeds the balance is rejected, and nothing else changes. -/
theorem step_eq_rejected (price : ℕ → ℚ) (s : SimState) (o : Order)
    (instr : Instrument) (acct : Account) (fp : ℚ)
    (hi : find_instrument s.instruments o.instrumentId = some instr)
    (ht : trigger_fill_price o (price o.instrumentId) = some fp)
    (h0 : ¬ fp = 0)
    (ha : find_account s.accounts o.accountId = some acct)
    (hbuy : o.side = .buy)
    (hlt : acct.virtualBalance < fp * o.size / (o.leverage : ℚ)) :
    step price s o
      = { s with orders := update_order s.orders { o with status := .rejected } } := by
  unfold step
  rw [hi]
  dsimp only
  rw [ht]
  dsimp only
  rw [if_neg h0, ha]
  dsimp only
  rw [if_pos ⟨hbuy, hlt⟩]

/-- Symbolic execution of `step`: a triggered order that passes (or is exempt
from) the balance check proceeds to the fill block. -/
theorem step_eq_fill_step (price : ℕ → ℚ) (s : SimState) (o : Order)
    (instr : Instrument) (acct : Account) (fp : ℚ)
    (hi : find_instrument s.instruments o.instrumentId = some instr)
    (ht : trigger_fill_price o (price o.instrumentId) = some fp)
    (h0 : ¬ fp = 0)
    (ha : find_account s.accounts o.accountId = some acct)
    (hnr : ¬ (o.side = .buy ∧ acct.virtualBalance < fp * o.size / (o.leverage : ℚ))) :
    step price s o = fill_step s instr o acct fp := by
  unfold step
  rw [hi]
  dsimp only
  rw [ht]
  dsimp only
  rw [if_neg h0, ha]
  dsimp only
  rw [if_neg hnr]

/-- Symbolic execution of `fill_step` with no open position: a brand-new
position is created and the fee entry appended. -/
theorem fill_step_no_position (s : SimState) (instr : Instrument) (o : Order)
    (acct : Account) (fp : ℚ)
    (hp : find_open_position s.positions o.accountId o.instrumentId = none) :
    fill_step s instr o acct fp = { s with
      orders := update_order s.orders (filled_order o fp),
      positions := s.positions
        ++ [⟨s.nextPosId, acct.id, o.instrumentId, o.side, o.size, fp, fp, o.leverage, .opened⟩],
      accounts := update_account s.accounts (charged_account acct o fp),
      ledger := s.ledger
        ++ [fee_ledger_entry (charged_account acct o fp) instr (filled_order o fp)],
      nextPosId := s.nextPosId + 1 } := by
  simp only [fill_step]
  rw [hp]

/-- Symbolic execution of `fill_step` on an opposite-side fill smaller than
the open position: the position shrinks, no P&L is realized, only the fee
entry is appended. -/
theorem fill_step_partial_close (s : SimState) (instr : Instrument) (o : Order)
    (acct : Account) (fp : ℚ) (pos : Position)
    (hp : find_open_position s.positions o.accountId o.instrumentId = some pos)
    (hside : ¬ pos.side = o.side)
    (hsz : ¬ o.size ≥ pos.size) :
    fill_step s instr o acct fp = { s with
      orders := update_order s.orders (filled_order o fp),
      positions := update_position s.positions { pos with size := pos.size - o.size, currentPrice := fp },
      accounts := update_account s.accounts (charged_account acct o fp),
      ledger := s.ledger
        ++ [fee_ledger_entry (charged_account acct o fp) instr (filled_order o fp)] } := by
  simp only [fill_step]
  rw [hp]
  dsimp only
  rw [if_neg hside, if_neg hsz]

/-- Symbolic execution of `fill_step` on an opposite-side fill strictly larger
than the open position: the position is closed with P&L realized on its own
size, a residual position opens on the remainder at the fill price, and both
the P&L and fee ledger entries are appended. -/
theorem fill_step_overshoot (s : SimState) (instr : Instrument) (o : Order)
    (acct : Account) (fp : ℚ) (pos : Position)
    (hp : find_open_position s.positions o.accountId o.instrumentId = some pos)
    (hside : ¬ pos.side = o.side)
    (hsz : pos.size < o.size) :
    fill_step s instr o acct fp = { s with
      orders := update_order s.orders
        { filled_order o fp with pnl := some (realized_pnl pos fp) },
      positions := update_position s.positions { pos with status := .closed, currentPrice := fp }
        ++ [⟨s.nextPosId, acct.id, o.instrumentId, o.side, o.size - pos.size, fp, fp,
             o.leverage, .opened⟩],
      accounts := update_account s.accounts
        (pnl_account (charged_account acct o fp) (realized_pnl pos fp)),
      ledger := s.ledger
        ++ [pnl_ledger_entry (pnl_account (charged_account acct o fp) (realized_pnl pos fp)) instr
              { filled_order o fp with pnl := some (realized_pnl pos fp) } (realized_pnl pos fp),
            fee_ledger_entry (pnl_account (charged_account acct o fp) (realized_pnl pos fp)) instr
              { filled_order o fp with pnl := some (realized_pnl pos fp) }],
      nextPosId := s.nextPosId + 1 } := by
  simp only [fill_step]
  rw [hp]
  dsimp only
  rw [if_neg hside, if_pos (le_of_lt hsz)]
  simp only [if_pos (sub_pos.mpr hsz)]
  rfl

/-- C9: in `process_pending_orders` the insufficient-balance check applies
only to buy orders.  A triggered buy whose required margin
`fill_price * size / leverage` exceeds `virtual_balance` is set to Rejected
with no change to accounts, positions or ledger; a triggered sell (here
against no open position) is always filled, with margin plus fee deducted
from `virtual_balance` unconditionally — no lower bound on the balance — so a
sell fill can drive the balance negative. -/
theorem c9_balance_check_only_for_buys (price : ℕ → ℚ) (s : SimState) (o : Order)
    (instr : Instrument) (acct : Account) (fp : ℚ)
    (ho : o ∈ s.orders)
    (hi : find_instrument s.instruments o.instrumentId = some instr)
    (ht : trigger_fill_price o (price o.instrumentId) = some fp)
    (h0 : ¬ fp = 0)
    (ha : find_account s.accounts o.accountId = some acct) :
    (o.side = .buy → acct.virtualBalance < fp * o.size / (o.leverage : ℚ) →
      order_status_of (step price s o) o.id = some .rejected
      ∧ (step price s o).accounts = s.accounts
      ∧ (step price s o).ledger = s.ledger
      ∧ (step price s o).positions = s.positions)
    ∧ (o.side = .sell →
      find_open_position s.positions o.accountId o.instrumentId = none →
      order_status_of (step price s o) o.id = some .filled
      ∧ account_balance (step price s o) o.accountId
          = some (acct.virtualBalance
              - (fp * o.size / (o.leverage : ℚ) + fp * o.size * (1/1000)))) := by
  constructor
  · intro hbuy hlt
    have hstep := step_eq_rejected price s o instr acct fp hi ht h0 ha hbuy hlt
    refine ⟨?_, by rw [hstep], by rw [hstep], by rw [hstep]⟩
    rw [hstep]
    unfold order_status_of order_by_id
    have hfind := find_update_order s.orders { o with status := OrderStatus.rejected } o.id
      rfl ⟨o, ho, rfl⟩
    simp only [hfind]
    rfl
  · intro hsell hp
    have hnr : ¬ (o.side = .buy ∧ acct.virtualBalance < fp * o.size / (o.leverage : ℚ)) := by
      rintro ⟨hb, -⟩
      rw [hsell] at hb
      cases hb
    have hstep := step_eq_fill_step price s o instr acct fp hi ht h0 ha hnr
    have hfs := fill_step_no_position s instr o acct fp hp
    rw [hstep, hfs]
    constructor
    · unfold order_status_of order_by_id
      have hfind := find_update_order s.orders (filled_order o fp) o.id rfl ⟨o, ho, rfl⟩
      simp only [hfind]
      rfl
    · unfold account_balance find_account
      have haid : acct.id = o.accountId := find_account_id ha
      have hfind := find_update_account s.accounts (charged_account acct o fp) o.accountId
        haid ⟨acct, find_account_mem ha, haid⟩
      simp only [hfind]
      rfl

/-- C9 witness: the theorem at two concrete inputs — a buy limit (margin 100)
on balance 50 is rejected with no ledger/balance effect, and a sell limit
(margin 100, fee 0.1) on balance 10 fills and leaves the balance at -90.1,
which is negative. -/
theorem c9_balance_check_only_for_buys_witness :
    (order_status_of (step (fun _ => 100) c9BuyState c9BuyOrder) 1 = some .rejected
      ∧ (step (fun _ => 100) c9BuyState c9BuyOrder).accounts = c9BuyState.accounts
      ∧ (step (fun _ => 100) c9BuyState c9BuyOrder).ledger = c9BuyState.ledger
      ∧ (step (fun _ => 100) c9BuyState c9BuyOrder).positions = c9BuyState.positions)
    ∧ (order_status_of (step (fun _ => 100) c9SellState c9SellOrder) 1 = some .filled
      ∧ account_balance (step (fun _ => 100) c9SellState c9SellOrder) 1
          = some ((10 : ℚ) - (100 * 1 / ((1 : ℕ) : ℚ) + 100 * 1 * (1/1000))))
    ∧ ((10 : ℚ) - (100 * 1 / ((1 : ℕ) : ℚ) + 100 * 1 * (1/1000)) < 0) :=
  ⟨(c9_balance_check_only_for_buys (fun _ => 100) c9BuyState c9BuyOrder btcInstrument
      (mkAccount 50) 100 (by decide) (by decide) (by decide) (by decide) (by decide)).1
      (by decide) (by decide),
   (c9_balance_check_only_for_buys (fun _ => 100) c9SellState c9SellOrder btcInstrument
      (mkAccount 10) 100 (by decide) (by decide) (by decide) (by decide) (by decide)).2
      (by decide) (by decide),
   by decide⟩

/-- C2 (amended): in `process_pending_orders`, an opposite-side fill with
`fill.size < position.size` reduces the position by `fill.size` and leaves it
open (its status is untouched), but realizes NO P&L: the order's `pnl` field
is left unchanged, no trade-P&L ledger entry is appended (only the fee entry),
and the balance change is exactly `-(margin + fee)` with no
`(fill_price - entry_price) * fill.size` credit. -/
theorem c2_partial_close_realizes_no_pnl (price : ℕ → ℚ) (s : SimState) (o : Order)
    (instr : Instrument) (acct : Account) (fp : ℚ) (pos : Position)
    (ho : o ∈ s.orders)
    (hi : find_instrument s.instruments o.instrumentId = some instr)
    (ht : trigger_fill_price o (price o.instrumentId) = some fp)
    (h0 : ¬ fp = 0)
    (ha : find_account s.accounts o.accountId = some acct)
    (hnr : ¬ (o.side = .buy ∧ acct.virtualBalance < fp * o.size / (o.leverage : ℚ)))
    (hp : find_open_position s.positions o.accountId o.instrumentId = some pos)
    (hside : ¬ pos.side = o.side)
    (hsz : ¬ o.size ≥ pos.size) :
    position_by_id (step price s o) pos.id
      = some { pos with size := pos.size - o.size, currentPrice := fp }
    ∧ (order_by_id (step price s o) o.id).map Order.pnl = some o.pnl
    ∧ (step price s o).ledger
      = s.ledger ++ [fee_ledger_entry (charged_account acct o fp) instr (filled_order o fp)]
    ∧ (step price s o).ledger.filter (fun e => e.entryType == EntryType.trade_pnl)
      = s.ledger.filter (fun e => e.entryType == EntryType.trade_pnl)
    ∧ account_balance (step price s o) o.accountId
      = some (acct.virtualBalance
          - (fp * o.size / (o.leverage : ℚ) + fp * o.size * (1/1000))) := by
  have hstep := step_eq_fill_step price s o instr acct fp hi ht h0 ha hnr
  have hfs := fill_step_partial_close s instr o acct fp pos hp hside hsz
  rw [hstep, hfs]
  refine ⟨?_, ?_, rfl, ?_, ?_⟩
  · unfold position_by_id
    have hfind := find_update_position s.positions
      { pos with size := pos.size - o.size, currentPrice := fp } pos.id rfl
      ⟨pos, find_open_position_mem hp, rfl⟩
    simp only [hfind]
  · unfold order_by_id
    have hfind := find_update_order s.orders (filled_order o fp) o.id rfl ⟨o, ho, rfl⟩
    simp only [hfind]
    rfl
  · rw [List.filter_append]
    simp [fee_ledger_entry]
  · unfold account_balance find_account
    have haid : acct.id = o.accountId := find_account_id ha
    have hfind := find_update_account s.accounts (charged_account acct o fp) o.accountId
      haid ⟨acct, find_account_mem ha, haid⟩
    simp only [hfind]
    rfl

/-- C2 witness: the amended theorem at the concrete input of the
counterexample — sell 1 at 110 against the open long of size 2 at 100. -/
theorem c2_partial_close_realizes_no_pnl_witness :
    position_by_id (step (fun _ => 110) c2State (mkLimitOrder 1 .sell 1 110 0)) 1
      = some { c2Position with
          size := c2Position.size - (mkLimitOrder 1 .sell 1 110 0).size,
          currentPrice := 110 }
    ∧ (order_by_id (step (fun _ => 110) c2State (mkLimitOrder 1 .sell 1 110 0)) 1).map Order.pnl
      = some (mkLimitOrder 1 .sell 1 110 0).pnl
    ∧ account_balance (step (fun _ => 110) c2State (mkLimitOrder 1 .sell 1 110 0)) 1
      = some ((mkAccount 1000).virtualBalance
          - (110 * (mkLimitOrder 1 .sell 1 110 0).size / (((mkLimitOrder 1 .sell 1 110 0).leverage : ℕ) : ℚ)
             + 110 * (mkLimitOrder 1 .sell 1 110 0).size * (1/1000))) := by
  have h := c2_partial_close_realizes_no_pnl (fun _ => 110) c2State
    (mkLimitOrder 1 .sell 1 110 0) btcInstrument (mkAccount 1000) 110 c2Position
    (by decide) (by decide) (by decide) (by decide) (by decide) (by decide) (by decide)
    (by decide) (by decide)
  exact ⟨h.1, h.2.1, h.2.2.2.2⟩

/-- C8: an opposite-side fill strictly larger than the open position realizes
P&L on exactly the existing position's size — `(fill_price - entry) * size`
for a long, `(entry - fill_price) * size` for a short — records it on the
order and in a trade-P&L ledger entry, marks that position closed, and opens
a brand-new position of size `fill.size - position.size` at the fill price on
the fill's side. -/
theorem c8_overshoot_closes_and_reopens (price : ℕ → ℚ) (s : SimState) (o : Order)
    (instr : Instrument) (acct : Account) (fp : ℚ) (pos : Position)
    (ho : o ∈ s.orders)
    (hi : find_instrument s.instruments o.instrumentId = some instr)
    (ht : trigger_fill_price o (price o.instrumentId) = some fp)
    (h0 : ¬ fp = 0)
    (ha : find_account s.accounts o.accountId = some acct)
    (hnr : ¬ (o.side = .buy ∧ acct.virtualBalance < fp * o.size / (o.leverage : ℚ)))
    (hp : find_open_position s.positions o.accountId o.instrumentId = some pos)
    (hside : ¬ pos.side = o.side)
    (hsz : pos.size < o.size) :
    (pos.side = .buy → realized_pnl pos fp = (fp - pos.entryPrice) * pos.size)
    ∧ (pos.side = .sell → realized_pnl pos fp = (pos.entryPrice - fp) * pos.size)
    ∧ position_by_id (step price s o) pos.id
        = some { pos with status := .closed, currentPrice := fp }
    ∧ (order_by_id (step price s o) o.id).map Order.pnl
        = some (some (realized_pnl pos fp))
    ∧ (∃ np ∈ (step price s o).positions,
        np.side = o.side ∧ np.size = o.size - pos.size ∧ np.entryPrice = fp
          ∧ np.currentPrice = fp ∧ np.status = .opened)
    ∧ (step price s o).ledger
        = s.ledger
          ++ [pnl_ledger_entry (pnl_account (charged_account acct o fp) (realized_pnl pos fp))
                instr { filled_order o fp with pnl := some (realized_pnl pos fp) }
                (realized_pnl pos fp),
              fee_ledger_entry (pnl_account (charged_account acct o fp) (realized_pnl pos fp))
                instr { filled_order o fp with pnl := some (realized_pnl pos fp) }]
    ∧ account_balance (step price s o) o.accountId
        = some (acct.virtualBalance
            - (fp * o.size / (o.leverage : ℚ) + fp * o.size * (1/1000))
            + realized_pnl pos fp) := by
  have hstep := step_eq_fill_step price s o instr acct fp hi ht h0 ha hnr
  have hfs := fill_step_overshoot s instr o acct fp pos hp hside hsz
  rw [hstep, hfs]
  refine ⟨?_, ?_, ?_, ?_, ?_, rfl, ?_⟩
  · intro hb
    simp [realized_pnl, calculate_position_pnl, hb]
  · intro hb
    simp [realized_pnl, calculate_position_pnl, hb]
  · unfold position_by_id
    dsimp only
    rw [List.find?_append]
    have hfind := find_update_position s.positions
      { pos with status := .closed, currentPrice := fp } pos.id rfl
      ⟨pos, find_open_position_mem hp, rfl⟩
    rw [hfind]
    rfl
  · unfold order_by_id
    have hfind := find_update_order s.orders
      { filled_order o fp with pnl := some (realized_pnl pos fp) } o.id rfl ⟨o, ho, rfl⟩
    simp only [hfind]
    rfl
  · refine ⟨⟨s.nextPosId, acct.id, o.instrumentId, o.side, o.size - pos.size, fp, fp,
      o.leverage, .opened⟩, ?_, rfl, rfl, rfl, rfl, rfl⟩
    exact List.mem_append.mpr (Or.inr (List.mem_singleton.mpr rfl))
  · unfold account_balance find_account
    have haid : acct.id = o.accountId := find_account_id ha
    have hfind := find_update_account s.accounts
      (pnl_account (charged_account acct o fp) (realized_pnl pos fp)) o.accountId
      haid ⟨acct, find_account_mem ha, haid⟩
    simp only [hfind]
    rfl

/-- C8 witness: the spec's example — a long of size 2 at 100 closed by a sell
of size 5 at 110 realizes `(110 - 100) * 2 = 20`, closes the long, and opens
a residual position of size `5 - 2 = 3` at 110 on the sell side. -/
theorem c8_overshoot_closes_and_reopens_witness :
    realized_pnl c8Position 110 = (110 - 100) * 2
    ∧ realized_pnl c8Position 110 = 20
    ∧ position_by_id (step (fun _ => 110) c8State c8Order) 1
        = some { c8Position with status := .closed, currentPrice := 110 }
    ∧ (order_by_id (step (fun _ => 110) c8State c8Order) 1).map Order.pnl
        = some (some (realized_pnl c8Position 110))
    ∧ (∃ np ∈ (step (fun _ => 110) c8State c8Order).positions,
        np.side = c8Order.side ∧ np.size = c8Order.size - c8Position.size
          ∧ np.entryPrice = 110 ∧ np.currentPrice = 110 ∧ np.status = .opened) := by
  have h := c8_overshoot_closes_and_reopens (fun _ => 110) c8State c8Order btcInstrument
    (mkAccount 1000) 110 c8Position (by decide) (by decide) (by decide) (by decide)
    (by decide) (by decide) (by decide) (by decide) (by decide)
  
  exact ⟨by
      have := h.1 (by decide)
      simpa [c8Position] using this,
    by decide, h.2.2.1, h.2.2.2.1, h.2.2.2.2.1⟩

/-- A helper bound: every spread percentage is strictly between 0 and 2. -/
theorem SPREADS_bounds (it : InstrumentType) : 0 < SPREADS it ∧ SPREADS it < 2 := by
  cases it <;> constructor <;> norm_num [SPREADS]

/-- The ask is positive at a positive market price. -/
theorem ask_pos (current_price : ℚ) (it : InstrumentType) (hp : 0 < current_price) :
    0 < (calculate_spread current_price it).2 := by
  have hS := SPREADS_bounds it
  simp only [calculate_spread]
  nlinarith [mul_pos hp hS.1]

/-- The bid is positive at a positive market price. -/
theorem bid_pos (current_price : ℚ) (it : InstrumentType) (hp : 0 < current_price) :
    0 < (calculate_spread current_price it).1 := by
  have hS := SPREADS_bounds it
  simp only [calculate_spread]
  nlinarith [mul_pos hp hS.1, mul_lt_mul_of_pos_left hS.2 hp]

/-- C10: for every filled stop order, the returned record reports
`slippage = 0`, although the returned `fill_price` is the touch price plus
the computed stop slippage — a nonzero adjustment whenever the random factor
and the market price are positive. -/
theorem c10_stop_slippage_reported_zero (r size current_price sp : ℚ) (lpo : Option ℚ)
    (it : InstrumentType) (lev : ℕ) (side : OrderSide)
    (fp fs nv mr fe sl : ℚ)
    (hout : simulate_order_fill r .stop side size current_price lpo (some sp) it lev
      = .filled fp fs nv mr fe sl) :
    sl = 0
    ∧ fp = (if side = .buy then (calculate_spread current_price it).2
            else (calculate_spread current_price it).1)
        + calculate_slippage r .stop side
            (if side = .buy then (calculate_spread current_price it).2
             else (calculate_spread current_price it).1)
    ∧ (0 < r → 0 < current_price →
        fp ≠ (if side = .buy then (calculate_spread current_price it).2
              else (calculate_spread current_price it).1)) := by
  by_cases hsp : sp = 0
  · have hrej : simulate_order_fill r .stop side size current_price lpo (some sp) it lev
        = .rejected ("Stop price required for stop order") := by
      simp only [simulate_order_fill, truthy]
      rw [if_pos hsp]
    rw [hrej] at hout
    exact FillOutcome.noConfusion hout
  · have htr : truthy (some sp) = some sp := by
      simp only [truthy]
      rw [if_neg hsp]
    by_cases htrig : (side = .buy ∧ current_price ≥ sp) ∨ (side = .sell ∧ current_price ≤ sp)
    · have heq : simulate_order_fill r .stop side size current_price lpo (some sp) it lev
          = fill_return .stop
              ((if side = .buy then (calculate_spread current_price it).2
                else (calculate_spread current_price it).1)
               + calculate_slippage r .stop side
                   (if side = .buy then (calculate_spread current_price it).2
                    else (calculate_spread current_price it).1))
              size
              (calculate_slippage r .stop side
                (if side = .buy then (calculate_spread current_price it).2
                 else (calculate_spread current_price it).1))
              lev := by
        simp only [simulate_order_fill, htr]
        rw [if_pos htrig]
      rw [heq] at hout
      simp only [fill_return] at hout
      injection hout with h1 h2 h3 h4 h5 h6
      have hsl : sl = 0 := by
        rw [← h6, if_neg (by decide : ¬ OrderType.stop = OrderType.market)]
      refine ⟨hsl, h1.symm, ?_⟩
      intro hr hp hcontra
      have hslip0 : calculate_slippage r .stop side
          (if side = .buy then (calculate_spread current_price it).2
           else (calculate_spread current_price it).1) = 0 := by
        rw [hcontra] at h1
        linarith
      have hslipne : calculate_slippage r .stop side
          (if side = .buy then (calculate_spread current_price it).2
           else (calculate_spread current_price it).1) ≠ 0 := by
        simp only [calculate_slippage, MAX_SLIPPAGE]
        rw [if_neg (by norm_num : ¬ (3/1000 : ℚ) = 0)]
        cases side with
        | buy =>
          rw [if_pos rfl, if_pos rfl]
          have hask := ask_pos current_price it hp
          exact ne_of_gt (by positivity)
        | sell =>
          rw [if_neg (by decide : ¬ OrderSide.sell = OrderSide.buy),
              if_neg (by decide : ¬ OrderSide.sell = OrderSide.buy)]
          have hbid := bid_pos current_price it hp
          intro hzero
          rw [neg_eq_zero] at hzero
          exact absurd hzero (ne_of_gt (by positivity))
      exact hslipne hslip0
    · have hpend : simulate_order_fill r .stop side size current_price lpo (some sp) it lev
          = .pending none 0 "Stop price not triggered" := by
        simp only [simulate_order_fill, htr]
        rw [if_neg htrig]
      rw [hpend] at hout
      exact FillOutcome.noConfusion hout

/-- C10 witness: the theorem at a concrete input — a triggered buy stop at
market price 2000 (ask 2001) with slippage factor 1 fills at 2007.003 while
the record's slippage field is 0. -/
theorem c10_stop_slippage_reported_zero_witness :
    (simulate_order_fill 1 .stop .buy 1 2000 none (some 1000) .crypto 1
      = .filled (2007003/1000) 1 (2007003/1000) (2007003/1000) (2007003/1000000) 0)
    ∧ (0:ℚ) < 1 ∧ (0:ℚ) < 2000
    ∧ (2007003/1000 : ℚ)
        ≠ (if OrderSide.buy = OrderSide.buy then (calculate_spread 2000 .crypto).2
           else (calculate_spread 2000 .crypto).1) :=
  ⟨by decide, by decide, by decide,
   (c10_stop_slippage_reported_zero 1 1 2000 1000 none .crypto 1 .buy
      (2007003/1000) 1 (2007003/1000) (2007003/1000) (2007003/1000000) 0
      (by decide)).2.2 (by decide) (by decide)⟩

/-- Reduction helper: a buy-side conditional picks its first branch. -/
theorem ite_buy {α : Sort _} (a b : α) :
    (if OrderSide.buy = OrderSide.buy then a else b) = a := if_pos rfl

/-- Reduction helper: a sell-side conditional picks its second branch. -/
theorem ite_sell {α : Sort _} (a b : α) :
    (if OrderSide.sell = OrderSide.buy then a else b) = b := if_neg (by decide)

/-- Every slippage cap in the table is nonnegative. -/
theorem MAX_SLIPPAGE_nonneg (ot : OrderType) : 0 ≤ MAX_SLIPPAGE ot := by
  cases ot <;> norm_num [MAX_SLIPPAGE]

/-- The ask is nonnegative at a nonnegative market price. -/
theorem ask_nonneg (current_price : ℚ) (it : InstrumentType) (hp : 0 ≤ current_price) :
    0 ≤ (calculate_spread current_price it).2 := by
  have hS := SPREADS_bounds it
  simp only [calculate_spread]
  nlinarith [mul_nonneg hp (le_of_lt hS.1)]

/-- The bid is nonnegative at a nonnegative market price. -/
theorem bid_nonneg (current_price : ℚ) (it : InstrumentType) (hp : 0 ≤ current_price) :
    0 ≤ (calculate_spread current_price it).1 := by
  have hS := SPREADS_bounds it
  simp only [calculate_spread]
  nlinarith [mul_nonneg hp (le_of_lt hS.1), mul_le_mul_of_nonneg_left (le_of_lt hS.2) hp]

/-- Bounds: `calculate_slippage` with a factor in `[0, 1]` and a nonnegative base is
nonnegative and capped by `MAX_SLIPPAGE * base` for a buy, and nonpositive
with the mirrored cap for a sell. -/
theorem calculate_slippage_bounds (r base : ℚ) (ot : OrderType) (side : OrderSide)
    (hr0 : 0 ≤ r) (hr1 : r ≤ 1) (hb : 0 ≤ base) :
    (side = .buy → 0 ≤ calculate_slippage r ot side base
        ∧ calculate_slippage r ot side base ≤ MAX_SLIPPAGE ot * base)
    ∧ (side = .sell → calculate_slippage r ot side base ≤ 0
        ∧ -(MAX_SLIPPAGE ot * base) ≤ calculate_slippage r ot side base) := by
  have hmx := MAX_SLIPPAGE_nonneg ot
  by_cases hm : MAX_SLIPPAGE ot = 0
  · have hz : calculate_slippage r ot side base = 0 := by
      simp only [calculate_slippage]
      rw [if_pos hm]
    rw [hz, hm]
    constructor <;> intro _ <;> constructor <;> simp
  · have hstep : calculate_slippage r ot side base
        = if side = .buy then base * (MAX_SLIPPAGE ot * r) else -(base * (MAX_SLIPPAGE ot * r)) := by
      simp only [calculate_slippage]
      rw [if_neg hm]
    have hmain : 0 ≤ base * (MAX_SLIPPAGE ot * r)
        ∧ base * (MAX_SLIPPAGE ot * r) ≤ MAX_SLIPPAGE ot * base := by
      constructor
      · exact mul_nonneg hb (mul_nonneg hmx hr0)
      · nlinarith [mul_le_of_le_one_right hb hr1, hmx, mul_le_mul_of_nonneg_left
          (mul_le_of_le_one_right hb hr1) hmx]
    constructor
    · intro hside
      rw [hstep, hside, ite_buy]
      exact hmain
    · intro hside
      rw [hstep, hside, ite_sell]
      constructor
      · linarith [hmain.1]
      · linarith [hmain.2]

/-- Core of C7: once the fill price is known to be the touch price plus the
computed slippage, the adverse direction and the cap follow. -/
theorem c7_core (r current_price fp : ℚ) (it : InstrumentType) (side : OrderSide)
    (ot : OrderType) (hot : ot = .market ∨ ot = .stop)
    (hr0 : 0 ≤ r) (hr1 : r ≤ 1) (hp : 0 ≤ current_price)
    (h1 : (if side = .buy then (calculate_spread current_price it).2
           else (calculate_spread current_price it).1)
        + calculate_slippage r ot side
            (if side = .buy then (calculate_spread current_price it).2
             else (calculate_spread current_price it).1) = fp) :
    (side = .buy →
      (calculate_spread current_price it).2 ≤ fp
      ∧ fp - (calculate_spread current_price it).2
          ≤ (if ot = .market then (5/1000 : ℚ) else 3/1000)
            * (calculate_spread current_price it).2)
    ∧ (side = .sell →
      fp ≤ (calculate_spread current_price it).1
      ∧ (calculate_spread current_price it).1 - fp
          ≤ (if ot = .market then (5/1000 : ℚ) else 3/1000)
            * (calculate_spread current_price it).1) := by
  have hmax_eq : MAX_SLIPPAGE ot = (if ot = .market then (5/1000 : ℚ) else 3/1000) := by
    rcases hot with rfl | rfl
    · rw [if_pos rfl]
      rfl
    · rw [if_neg (by decide : ¬ OrderType.stop = OrderType.market)]
      rfl
  constructor
  · intro hside
    subst hside
    simp only [ite_buy, if_true] at h1
    have hbnds := (calculate_slippage_bounds r (calculate_spread current_price it).2 ot .buy
      hr0 hr1 (ask_nonneg current_price it hp)).1 rfl
    rw [← hmax_eq]
    constructor
    · linarith [hbnds.1]
    · linarith [hbnds.2]
  · intro hside
    subst hside
    simp only [ite_sell, if_false] at h1
    have hbnds := (calculate_slippage_bounds r (calculate_spread current_price it).1 ot .sell
      hr0 hr1 (bid_nonneg current_price it hp)).2 rfl
    rw [← hmax_eq]
    constructor
    · linarith [hbnds.1]
    · linarith [hbnds.2]

/-- C7: for every market or stop fill, with the random slippage factor in
`[0, 1]`, slippage moves the fill price against the trader — a buy fills at
or above the ask, a sell at or below the bid — and the adverse deviation is
bounded by the per-kind maximum percentage of the touch price: 0.5% for
market orders, 0.3% for stop orders. -/
theorem c7_slippage_adverse_bounded (r size current_price : ℚ) (lpo spo : Option ℚ)
    (it : InstrumentType) (lev : ℕ) (side : OrderSide) (ot : OrderType)
    (hot : ot = .market ∨ ot = .stop)
    (hr0 : 0 ≤ r) (hr1 : r ≤ 1) (hp : 0 ≤ current_price)
    (fp fs nv mr fe sl : ℚ)
    (hout : simulate_order_fill r ot side size current_price lpo spo it lev
      = .filled fp fs nv mr fe sl) :
    (side = .buy →
      (calculate_spread current_price it).2 ≤ fp
      ∧ fp - (calculate_spread current_price it).2
          ≤ (if ot = .market then (5/1000 : ℚ) else 3/1000)
            * (calculate_spread current_price it).2)
    ∧ (side = .sell →
      fp ≤ (calculate_spread current_price it).1
      ∧ (calculate_spread current_price it).1 - fp
          ≤ (if ot = .market then (5/1000 : ℚ) else 3/1000)
            * (calculate_spread current_price it).1) := by
  rcases hot with rfl | rfl
  · have heq : simulate_order_fill r .market side size current_price lpo spo it lev
        = fill_return .market
            ((if side = .buy then (calculate_spread current_price it).2
              else (calculate_spread current_price it).1)
             + calculate_slippage r .market side
                 (if side = .buy then (calculate_spread current_price it).2
                  else (calculate_spread current_price it).1))
            size
            (calculate_slippage r .market side
              (if side = .buy then (calculate_spread current_price it).2
               else (calculate_spread current_price it).1))
            lev := by
      simp only [simulate_order_fill]
    rw [heq] at hout
    simp only [fill_return] at hout
    injection hout with h1 h2 h3 h4 h5 h6
    exact c7_core r current_price fp it side .market (Or.inl rfl) hr0 hr1 hp h1
  · cases spo with
    | none =>
      have hrej : simulate_order_fill r .stop side size current_price lpo none it lev
          = .rejected ("Stop price required for stop order") := by
        simp only [simulate_order_fill, truthy]
      rw [hrej] at hout
      exact FillOutcome.noConfusion hout
    | some sp =>
      by_cases hsp : sp = 0
      · have hrej : simulate_order_fill r .stop side size current_price lpo (some sp) it lev
            = .rejected ("Stop price required for stop order") := by
          simp only [simulate_order_fill, truthy]
          rw [if_pos hsp]
        rw [hrej] at hout
        exact FillOutcome.noConfusion hout
      · have htr : truthy (some sp) = some sp := by
          simp only [truthy]
          rw [if_neg hsp]
        by_cases htrig : (side = .buy ∧ current_price ≥ sp)
            ∨ (side = .sell ∧ current_price ≤ sp)
        · have heq : simulate_order_fill r .stop side size current_price lpo (some sp) it lev
              = fill_return .stop
                  ((if side = .buy then (calculate_spread current_price it).2
                    else (calculate_spread current_price it).1)
                   + calculate_slippage r .stop side
                       (if side = .buy then (calculate_spread current_price it).2
                        else (calculate_spread current_price it).1))
                  size
                  (calculate_slippage r .stop side
                    (if side = .buy then (calculate_spread current_price it).2
                     else (calculate_spread current_price it).1))
                  lev := by
            simp only [simulate_order_fill, htr]
            rw [if_pos htrig]
          rw [heq] at hout
          simp only [fill_return] at hout
          injection hout with h1 h2 h3 h4 h5 h6
          exact c7_core r current_price fp it side .stop (Or.inr rfl) hr0 hr1 hp h1
        · have hpend : simulate_order_fill r .stop side size current_price lpo (some sp) it lev
              = .pending none 0 "Stop price not triggered" := by
            simp only [simulate_order_fill, htr]
            rw [if_neg htrig]
          rw [hpend] at hout
          exact FillOutcome.noConfusion hout

/-- C7 witness: a buy market order at market price 2000 with slippage factor
1/2 fills at 2006.0025, above the ask 2001 and within 0.5% of it. -/
theorem c7_slippage_adverse_bounded_witness :
    ((0:ℚ) ≤ 1/2 ∧ (1/2:ℚ) ≤ 1 ∧ (0:ℚ) ≤ 2000)
    ∧ (simulate_order_fill (1/2) .market .buy 1 2000 none none .crypto 1
        = .filled (802401/400) 1 (802401/400) (802401/400) (802401/400000) (2001/400))
    ∧ ((calculate_spread 2000 .crypto).2 ≤ 802401/400
      ∧ (802401/400 : ℚ) - (calculate_spread 2000 .crypto).2
          ≤ (if OrderType.market = OrderType.market then (5/1000 : ℚ) else 3/1000)
            * (calculate_spread 2000 .crypto).2) := by
  refine ⟨by decide, ?_, ?_⟩
  · decide
  · exact (c7_slippage_adverse_bounded (1/2) 1 2000 none none .crypto 1 .buy .market
      (Or.inl rfl) (by decide) (by decide) (by decide)
      (802401/400) 1 (802401/400) (802401/400) (802401/400000) (2001/400)
      (by decide)).1 (by decide)

/-- Whatever the position-book branch, the fill block writes back exactly one
order row: the loop's own order, with status FILLED. -/
theorem fill_step_orders_shape (s : SimState) (instr : Instrument) (o : Order)
    (acct : Account) (fp : ℚ) :
    ∃ o', (fill_step s instr o acct fp).orders = update_order s.orders o'
      ∧ o'.id = o.id ∧ o'.status = .filled := by
  simp only [fill_step]
  rcases hfind : find_open_position s.positions o.accountId o.instrumentId with _ | pos
  · exact ⟨filled_order o fp, rfl, rfl, rfl⟩
  · dsimp only
    by_cases hside : pos.side = o.side
    · rw [if_pos hside]
      exact ⟨filled_order o fp, rfl, rfl, rfl⟩
    · rw [if_neg hside]
      by_cases hsz : o.size ≥ pos.size
      · rw [if_pos hsz]
        exact ⟨{ filled_order o fp with pnl := some (realized_pnl pos fp) }, rfl, rfl, rfl⟩
      · rw [if_neg hsz]
        exact ⟨filled_order o fp, rfl, rfl, rfl⟩

/-- One processing step either leaves the whole state untouched (instrument
missing, trigger not met, falsy fill price, account missing) or writes back
the loop's order with a terminal status (REJECTED or FILLED). -/
theorem step_shape (price : ℕ → ℚ) (s : SimState) (o : Order) :
    step price s o = s
    ∨ ∃ o', (step price s o).orders = update_order s.orders o' ∧ o'.id = o.id
        ∧ (o'.status = .rejected ∨ o'.status = .filled) := by
  unfold step
  rcases hi : find_instrument s.instruments o.instrumentId with _ | instr
  · exact Or.inl rfl
  · dsimp only
    rcases ht : trigger_fill_price o (price o.instrumentId) with _ | fp
    · exact Or.inl rfl
    · dsimp only
      by_cases h0 : fp = 0
      · rw [if_pos h0]
        exact Or.inl rfl
      · rw [if_neg h0]
        rcases ha : find_account s.accounts o.accountId with _ | acct
        · exact Or.inl rfl
        · dsimp only
          by_cases hb : o.side = .buy ∧ acct.virtualBalance < fp * o.size / (o.leverage : ℚ)
          · rw [if_pos hb]
            exact Or.inr ⟨{ o with status := .rejected }, rfl, rfl, Or.inl rfl⟩
          · rw [if_neg hb]
            obtain ⟨o', ho', hid, hst⟩ := fill_step_orders_shape s instr o acct fp
            exact Or.inr ⟨o', ho', hid, Or.inr hst⟩

/-- C3 (amended): replay protection comes from the order-status state machine,
not from any ledger lookup: a fill (or rejection) moves the order out of
PENDING and the sweep selects only PENDING conditional orders, so running the
sweep a second time over the same order is a complete no-op — it appends no
second ledger entry per effect and leaves the balance unchanged.  (The
counterexample shows no check of existing ledger entries exists: a
pre-existing entry referencing the order does not suppress posting.) -/
theorem c3_sweep_replay_is_noop (price : ℕ → ℚ) (s : SimState) (o : Order)
    (hs : s.orders = [o]) :
    process_pending_orders price (process_pending_orders price s)
      = process_pending_orders price s := by
  by_cases he : pending_conditional o = true
  · have h1 : process_pending_orders price s = step price s o := by
      unfold process_pending_orders
      rw [hs, List.filter_cons_of_pos he, List.filter_nil]
      rfl
    rcases step_shape price s o with h | ⟨o', ho', hid, hst⟩
    · rw [h1, h]
      exact h1.trans h
    · have horders : (process_pending_orders price s).orders = [o'] := by
        rw [h1, ho', hs]
        simp [update_order, hid]
      have hne : pending_conditional o' = false := by
        rcases hst with h | h <;> simp [pending_conditional, h]
      show ((process_pending_orders price s).orders.filter pending_conditional).foldl
          (step price) (process_pending_orders price s) = process_pending_orders price s
      rw [horders, List.filter_cons_of_neg (by simp [hne]), List.filter_nil]
      rfl
  · have h1 : process_pending_orders price s = s := by
      unfold process_pending_orders
      rw [hs, List.filter_cons_of_neg he, List.filter_nil]
      rfl
    rw [h1, h1]

/-- C3 witness: the amended theorem at the concrete C1 input — sweeping the
already-swept single-order state changes nothing. -/
theorem c3_sweep_replay_is_noop_witness :
    (c1State.orders = [mkLimitOrder 1 .buy 1 100 0])
    ∧ process_pending_orders (fun _ => 100) (process_pending_orders (fun _ => 100) c1State)
      = process_pending_orders (fun _ => 100) c1State :=
  ⟨rfl, c3_sweep_replay_is_noop (fun _ => 100) c1State (mkLimitOrder 1 .buy 1 100 0) rfl⟩

end Engine